import Mathlib

/-!
Verification of the visual-parking repository's core computer-vision
pipeline against its specification.

The development shallowly embeds the Python sources:

* `app/cv/anpr.py`            — plate-text cleaning and validation,
* `app/cv/slot_detector.py`   — slot layout generation and occupancy scoring,
* `app/cv/cv_service.py`      — the event dispatcher / rate limiter,
* `app/cv/camera_manager.py`  — the per-camera worker loop,
* `src/pipelines/entry_pipeline.py` and `src/models/plate_ocr.py`
                              — the entry pipeline's duplicate suppression and
                                multi-attempt OCR selection.

Machine floats are modelled by exact rationals, `datetime` instants by
rational numbers of seconds, numpy images by lists of rows of pixel values,
and Python dicts by association lists consulted through `List.lookup`.
Black-box CV primitives (background subtraction, Canny edge maps, the OCR
engine itself) are passed in as explicit function or data parameters.
Characters are treated at ASCII granularity: the regex class `\s` is the
set of the six ASCII whitespace characters and `str.upper` is the ASCII
case map, which agrees with Python on every string the pipeline feeds
these functions (raw OCR output is filtered to `[A-Za-z0-9\s]` first).
-/

namespace VisualParking

/-! ## Character-level utilities (ASCII models of Python's `re` classes) -/

/-- ASCII model of the regex class `[A-Z]`. -/
def isUpperAZ (c : Char) : Bool := 65 ≤ c.toNat && c.toNat ≤ 90

/-- ASCII model of the regex class `[a-z]`. -/
def isLowerAZ (c : Char) : Bool := 97 ≤ c.toNat && c.toNat ≤ 122

/-- ASCII model of the regex class `\d` / Python `str.isdigit` on plate text. -/
def isDigit09 (c : Char) : Bool := 48 ≤ c.toNat && c.toNat ≤ 57

/-- ASCII model of the regex class `\s`: space, tab, newline, vertical tab,
form feed, carriage return. -/
def isWsPy (c : Char) : Bool :=
  c.toNat = 32 || c.toNat = 9 || c.toNat = 10 || c.toNat = 11 ||
  c.toNat = 12 || c.toNat = 13

/-- ASCII model of Python `str.isalpha` on plate text. -/
def isAlphaPy (c : Char) : Bool := isUpperAZ c || isLowerAZ c

/-- Characters kept by `re.sub(r'[^A-Za-z0-9\s]', '', text)` in
`LicensePlateRecognizer._clean_plate_text`. -/
def keepChar (c : Char) : Bool := isAlphaPy c || isDigit09 c || isWsPy c

/-- ASCII model of Python `str.upper` applied character-wise. -/
def upperPy (c : Char) : Char :=
  if isLowerAZ c then Char.ofNat (c.toNat - 32) else c

/-! ## `LicensePlateRecognizer._clean_plate_text` (anpr.py lines 170-189)

The source performs, in order:
1. `re.sub(r'[^A-Za-z0-9\s]', '', text)` — drop every character outside
   the kept class;
2. `.upper()` — uppercase;
3. `.strip()` — remove leading and trailing whitespace;
4. `re.sub(r'\s+', ' ', ...)` — replace each maximal whitespace run by a
   single space. -/

/-- Removal of trailing whitespace (the right half of Python `str.strip`). -/
def dropTrailWs : List Char → List Char
  | [] => []
  | c :: cs =>
    let rest := dropTrailWs cs
    if rest.isEmpty && isWsPy c then [] else c :: rest

/-- Python `str.strip()`: drop leading then trailing whitespace. -/
def stripWs (l : List Char) : List Char := dropTrailWs (l.dropWhile isWsPy)

/-- Worker for `re.sub(r'\s+', ' ', s)`; the flag records whether the scan
is inside a whitespace run whose single replacement space was already
emitted. -/
def collapseGo : Bool → List Char → List Char
  | _, [] => []
  | inRun, c :: cs =>
    if isWsPy c then (if inRun then [] else [' ']) ++ collapseGo true cs
    else c :: collapseGo false cs

/-- The substitution `re.sub(r'\s+', ' ', s)`: each maximal whitespace run
becomes one space. -/
def collapseWs (l : List Char) : List Char := collapseGo false l

/-- Embedding of `LicensePlateRecognizer._clean_plate_text`. -/
def clean_plate_text (l : List Char) : List Char :=
  collapseWs (stripWs ((l.filter keepChar).map upperPy))

/-- The first character, when present, is not whitespace. -/
def noLeadWs : List Char → Prop
  | [] => True
  | c :: _ => isWsPy c = false

/-- The last character, when present, is not whitespace. -/
def noTrailWs : List Char → Prop
  | [] => True
  | [c] => isWsPy c = false
  | _ :: c :: cs => noTrailWs (c :: cs)

/-- No two adjacent characters are both whitespace. -/
def noWsRun : List Char → Prop
  | c :: d :: ds => (isWsPy c = false ∨ isWsPy d = false) ∧ noWsRun (d :: ds)
  | _ => True

/-! ## `LicensePlateRecognizer._validate_plate_text` (anpr.py lines 191-213)

The configured patterns are
`^[A-Z]{1,3}\s?\d{1,4}\s?[A-Z]{0,3}$`,
`^\d{1,2}\s?[A-Z]{1,3}\s?\d{1,4}$` and
`^[A-Z]{2}\s?\d{2}\s?[A-Z]{1,3}\s?\d{1,4}$`.
Each is a plain sequence of character classes with bounded repetition, so
matching is embedded by a small backtracking matcher over items
`(class, min, max)`; `re.match` with the `^...$` anchors is exactly a
full-string match. -/

/-- One regex item: a character class with a repetition range. -/
structure ReItem where
  cls : Char → Bool
  lo : ℕ
  hi : ℕ

/-- Consume between `lo` and `hi` characters of class `cls` from the front
of `s`, then continue with `k`; succeeds when some such split succeeds. -/
def repConsume (cls : Char → Bool) : ℕ → ℕ → (List Char → Bool) → List Char → Bool
  | lo, 0, k, s => if lo = 0 then k s else false
  | lo, hi + 1, k, s =>
    (if lo = 0 then k s else false) ||
    (match s with
     | [] => false
     | c :: cs => cls c && repConsume cls (lo - 1) hi k cs)

/-- Full-string matching of a sequence of bounded-repetition character
classes, with backtracking (existential) semantics. -/
def reMatch : List ReItem → List Char → Bool
  | [], s => s.isEmpty
  | it :: rest, s => repConsume it.cls it.lo it.hi (reMatch rest) s

/-- Pattern `^[A-Z]{1,3}\s?\d{1,4}\s?[A-Z]{0,3}$` (general format). -/
def platePattern1 : List ReItem :=
  [⟨isUpperAZ, 1, 3⟩, ⟨isWsPy, 0, 1⟩, ⟨isDigit09, 1, 4⟩, ⟨isWsPy, 0, 1⟩,
   ⟨isUpperAZ, 0, 3⟩]

/-- Pattern `^\d{1,2}\s?[A-Z]{1,3}\s?\d{1,4}$` (number-letter-number). -/
def platePattern2 : List ReItem :=
  [⟨isDigit09, 1, 2⟩, ⟨isWsPy, 0, 1⟩, ⟨isUpperAZ, 1, 3⟩, ⟨isWsPy, 0, 1⟩,
   ⟨isDigit09, 1, 4⟩]

/-- Pattern `^[A-Z]{2}\s?\d{2}\s?[A-Z]{1,3}\s?\d{1,4}$` (state-code format). -/
def platePattern3 : List ReItem :=
  [⟨isUpperAZ, 2, 2⟩, ⟨isWsPy, 0, 1⟩, ⟨isDigit09, 2, 2⟩, ⟨isWsPy, 0, 1⟩,
   ⟨isUpperAZ, 1, 3⟩, ⟨isWsPy, 0, 1⟩, ⟨isDigit09, 1, 4⟩]

/-- The recognizer's `self.plate_patterns`. -/
def plate_patterns : List (List ReItem) :=
  [platePattern1, platePattern2, platePattern3]

/-- Embedding of `LicensePlateRecognizer._validate_plate_text`: reject empty
or shorter-than-4 text, then accept on any pattern match, otherwise require
at least one letter and one digit. -/
def validate_plate_text (t : List Char) : Bool :=
  if t.isEmpty || t.length < 4 then false
  else if plate_patterns.any (fun p => reMatch p t) then true
  else t.any isAlphaPy && t.any isDigit09

/-! ## `SlotOccupancyDetector` layout generation (slot_detector.py lines 64-210) -/

/-- Embedding of the `SlotROI` dataclass.  `coordinates` is `(x, y, w, h)`. -/
structure SlotROI where
  slot_id : ℕ
  slot_code : String
  x : ℕ
  y : ℕ
  w : ℕ
  h : ℕ
  vehicle_type : String
  camera_id : ℕ
deriving Repr, DecidableEq

/-- Two-digit zero padding, the `f"{n:02d}"` format for `n < 100`. -/
def pad2 (n : ℕ) : String := if n < 10 then "0" ++ toString n else toString n

/-- Embedding of `SlotOccupancyDetector._calculate_slot_id`. -/
def calculate_slot_id (floor : String) (vehicle_type : String) (slot_num : ℕ) : ℕ :=
  (if floor = "A" then 0 else 1000) + (if vehicle_type = "CAR" then 0 else 100) + slot_num

/-- Embedding of `SlotOccupancyDetector._generate_car_slot_rois`: 4 car slots
per camera, one row, x spacing 130 starting at 50. -/
def generate_car_slot_rois (camera_id : ℕ) (floor : String) (cam_num : ℕ) : List SlotROI :=
  (List.range 4).map (fun i =>
    let slot_num := (cam_num - 1) * 4 + 1 + i
    { slot_id := calculate_slot_id floor "CAR" slot_num
      slot_code := floor ++ "-C-" ++ pad2 slot_num
      x := 50 + i * 130, y := 100, w := 120, h := 200
      vehicle_type := "CAR", camera_id := camera_id })

/-- Embedding of `SlotOccupancyDetector._generate_bike_slot_rois`: 8 bike
slots per camera in 2 rows of 4. -/
def generate_bike_slot_rois (camera_id : ℕ) (floor : String) (cam_num : ℕ) : List SlotROI :=
  (List.range 8).map (fun i =>
    let slot_num := (cam_num - 1) * 8 + 1 + i
    let row := i / 4
    let col := i % 4
    { slot_id := calculate_slot_id floor "BIKE" slot_num
      slot_code := floor ++ "-B-" ++ pad2 slot_num
      x := 30 + col * 70, y := 80 + row * (120 + 20), w := 60, h := 120
      vehicle_type := "BIKE", camera_id := camera_id })

/-- One floor's worth of `_initialize_slot_layout`: five car cameras then two
bike cameras, with consecutively assigned camera ids starting at `startId`. -/
def layoutForFloor (floor : String) (startId : ℕ) : List (ℕ × List SlotROI) :=
  ((List.range 5).map (fun j => (startId + j, generate_car_slot_rois (startId + j) floor (j + 1))))
    ++ ((List.range 2).map (fun j =>
          (startId + 5 + j, generate_bike_slot_rois (startId + 5 + j) floor (j + 1))))

/-- Embedding of `SlotOccupancyDetector._initialize_slot_layout`: floors `A`
then `B`, camera ids running from 1. -/
def initialize_slot_layout : List (ℕ × List SlotROI) :=
  layoutForFloor "A" 1 ++ layoutForFloor "B" 8

/-- Every generated `SlotROI`, in generation order. -/
def allSlotROIs : List SlotROI := (initialize_slot_layout.map Prod.snd).flatten

/-- Every generated slot id, in generation order. -/
def allSlotIds : List ℕ := allSlotROIs.map SlotROI.slot_id

/-! ## `SlotOccupancyDetector` occupancy scoring (slot_detector.py lines 267-336)

A frame is a list of rows of pixel values; the backgrounds-subtraction mask
is a list of rows of `uint8` values.  The Canny edge map of the (colour)
slot region is a black-box CV primitive, passed as a function parameter. -/

/-- Python/numpy rectangle slicing `a[y:y+h, x:x+w]` for nonnegative indices. -/
def cropRegion (frame : List (List α)) (x y w h : ℕ) : List (List α) :=
  ((frame.drop y).take h).map (fun row => (row.drop x).take w)

/-- The `numpy.var` population variance of a list of values (only consulted
on nonempty data; `ℚ` division by zero is 0). -/
def npVar (l : List ℚ) : ℚ :=
  let n : ℚ := l.length
  let mean := l.sum / n
  (l.map (fun v => (v - mean) ^ 2)).sum / n

/-- Embedding of `SlotOccupancyDetector._calculate_occupancy_score`.
`canny` abstracts `cv2.Canny(cv2.cvtColor(slot_region, GRAY), 50, 150)`. -/
def calculate_occupancy_score (canny : List (List ℚ) → List ℕ)
    (slot_region : List (List ℚ)) (mask_region : List (List ℕ)) : ℚ :=
  let slotv := slot_region.flatten
  if slotv.length = 0 then 0
  else
    let maskv := mask_region.flatten
    let motion_pixels : ℕ := (maskv.filter (fun v => 0 < v)).length
    let total_pixels : ℕ := maskv.length
    let motion_score : ℚ := if 0 < total_pixels then (motion_pixels : ℚ) / total_pixels else 0
    let edges := canny slot_region
    let edge_score : ℚ :=
      if 0 < edges.length then ((edges.filter (fun v => 0 < v)).length : ℚ) / edges.length else 0
    let color_variance := npVar slotv
    let normalized_variance := min (color_variance / 1000) 1
    let occupancy_score :=
      0.4 * motion_score + 0.3 * edge_score + 0.3 * normalized_variance
    min occupancy_score 1

/-- Clamping to the unit interval, as the specification states it. -/
def clamp01 (q : ℚ) : ℚ := max 0 (min q 1)

/-- Embedding of the `SlotStatus` dataclass (the `last_updated` wall-clock
timestamp and the optional plate fields are irrelevant to the claims). -/
structure SlotStatusM where
  slot_id : ℕ
  is_occupied : Bool
  confidence : ℚ
deriving Repr, DecidableEq

/-- Embedding of `SlotOccupancyDetector._check_slot_occupancy`. -/
def check_slot_occupancy (canny : List (List ℚ) → List ℕ) (occupancy_threshold : ℚ)
    (frame : List (List ℚ)) (bg_mask : List (List ℕ)) (roi : SlotROI) : SlotStatusM :=
  let slot_region := cropRegion frame roi.x roi.y roi.w roi.h
  let mask_region := cropRegion bg_mask roi.x roi.y roi.w roi.h
  let occupancy_score := calculate_occupancy_score canny slot_region mask_region
  { slot_id := roi.slot_id
    is_occupied := decide (occupancy_score > occupancy_threshold)
    confidence := occupancy_score }

/-! ## `CVParkingService` dispatcher / rate limiter (cv_service.py lines 147-243)

State is the `last_api_call` dict (an association list keyed by
`f"{detection_type}_{license_plate}"`, newest entry first) together with the
`failed_detections` counter.  Times are rational seconds.  The second
component of each handler's result is the number of backend calls initiated
(`asyncio.create_task` of the API coroutine). -/

/-- The rate limiter / statistics state of `CVParkingService`. -/
structure CVState where
  last_api_call : List (String × ℚ)
  failed_detections : ℕ
deriving Repr, DecidableEq

/-- The `self.api_cooldown` of 5 seconds. -/
def api_cooldown : ℚ := 5

/-- Embedding of `CVParkingService._is_rate_limited`: a key already called
strictly less than the cooldown ago is limited (state untouched); otherwise
the key's timestamp is set to `now` and the call proceeds. -/
def is_rate_limited (st : CVState) (detection_type license_plate : String)
    (now : ℚ) : Bool × CVState :=
  let key := detection_type ++ "_" ++ license_plate
  match st.last_api_call.lookup key with
  | some last_call =>
    if now - last_call < api_cooldown then (true, st)
    else (false, { st with last_api_call := (key, now) :: st.last_api_call })
  | none => (false, { st with last_api_call := (key, now) :: st.last_api_call })

/-- Embedding of `CVParkingService._handle_entry_detection`.  `license_plate`
is `detection_data.get('license_plate')` (with `none` and the empty string
falsy), `plate_confidence` is `detection_data.get('plate_confidence', 0.0)`.
Returns the new state and the number of backend entry calls initiated. -/
def handle_entry_detection (plate_confidence_threshold : ℚ) (st : CVState)
    (license_plate : Option String) (plate_confidence : ℚ) (now : ℚ) : CVState × ℕ :=
  match license_plate with
  | none => (st, 0)
  | some p =>
    if p = "" then (st, 0)
    else
      let r := is_rate_limited st "entry" p now
      if r.1 then (r.2, 0)
      else if plate_confidence < plate_confidence_threshold then
        ({ r.2 with failed_detections := r.2.failed_detections + 1 }, 0)
      else (r.2, 1)

/-! ## `EntryPipeline.process_frame` duplicate suppression
(entry_pipeline.py lines 101-111)

The pipeline remembers `last_processed_plate` and `last_processed_time`;
a frame whose validated text equals the remembered plate is suppressed when
`(current_time - last_processed_time).seconds < 10`.  Crucially `.seconds`
is the `timedelta` seconds *component*: for a nonnegative delta of `d`
seconds it equals `⌊d⌋ % 86400`, not the total number of seconds. -/

/-- The duplicate-suppression state of `EntryPipeline`. -/
structure EntryPipelineState where
  last_processed_plate : Option String
  last_processed_time : Option ℚ
deriving Repr, DecidableEq

/-- The `.seconds` field of a Python `timedelta` of `d` (nonnegative)
seconds: the integer seconds component after removing whole days. -/
def tdSeconds (d : ℚ) : ℤ := (Int.floor d) % 86400

/-- Embedding of the duplicate-suppression step of
`EntryPipeline.process_frame` for a frame whose OCR produced the validated
text `plate_text` at `current_time`: either no event (`none`) and the state
kept, or an event carrying the text and the state updated. -/
def entry_dedup_step (st : EntryPipelineState) (plate_text : String)
    (current_time : ℚ) : Option String × EntryPipelineState :=
  let dup : Bool :=
    match st.last_processed_time with
    | some t0 =>
      decide (st.last_processed_plate = some plate_text) &&
        decide (tdSeconds (current_time - t0) < 10)
    | none => false
  if dup then (none, st)
  else
    (some plate_text,
     { last_processed_plate := some plate_text,
       last_processed_time := some current_time })

/-! ## `PlateOCR.read_with_multiple_attempts` (plate_ocr.py lines 158-191)

`read_text` (the OCR engine plus confidence gate and cleaning) is a black
box; its three outcomes — standard preprocessing, no preprocessing, and
contrast-enhanced input — enter as the parameters `r1`, `r2`, `r3`.  A
`none` models Python `None`; `some []` models an empty cleaned string,
which the `if result:` truthiness tests also discard. -/

/-- Append an attempt's outcome when it is truthy (non-`None`, nonempty). -/
def truthyApp (attempts : List (List Char)) (r : Option (List Char)) : List (List Char) :=
  match r with
  | some s => if s.isEmpty then attempts else attempts ++ [s]
  | none => attempts

/-- The `attempts` list collected by `read_with_multiple_attempts`. -/
def collectAttempts (r1 r2 r3 : Option (List Char)) : List (List Char) :=
  truthyApp (truthyApp (truthyApp [] r1) r2) r3

/-- Python `max(attempts, key=len)`: the first element of maximal length. -/
def maxByLen (a : List Char) (rest : List (List Char)) : List Char :=
  rest.foldl (fun acc x => if acc.length < x.length then x else acc) a

/-- Embedding of `PlateOCR.read_with_multiple_attempts` as a function of the
three `read_text` outcomes. -/
def read_with_multiple_attempts (r1 r2 r3 : Option (List Char)) : Option (List Char) :=
  match collectAttempts r1 r2 r3 with
  | [] => none
  | a :: rest => some (maxByLen a rest)

/-- An attempt that contributes nothing: Python `None` or an empty string. -/
def blankResult (r : Option (List Char)) : Prop := r = none ∨ r = some []

/-! ## `CameraManager._process_camera_stream` (camera_manager.py lines 182-217)

One iteration of the worker loop, as a function of the wall clock and the
outcome of `cap.read()`.  The iteration reports the updated per-camera
state, the duration of the `time.sleep` it performs, whether a frame was
handed to `_process_frame`, and whether the loop proceeds to its next
iteration (the loop only ever exits through the external stop flag). -/

/-- Outcome of `cap.read()` in one iteration: a decoded frame, `ret = False`
(no frame), or an exception raised by the read. -/
inductive ReadOutcome where
  | frameOk
  | noFrame
  | raised
deriving Repr, DecidableEq

/-- Per-camera worker-loop state. -/
structure CameraLoopState where
  last_frame_time : ℚ
  frame_count : ℕ
deriving Repr, DecidableEq

/-- What one loop iteration did. -/
structure CameraStepResult where
  state : CameraLoopState
  sleepSeconds : ℚ
  processedFrame : Bool
  loopContinues : Bool
deriving Repr, DecidableEq

/-- Embedding of one iteration of `CameraManager._process_camera_stream`:
poll-throttle to `frame_interval`, read a frame, and contain all per-frame
failures.  A `ret = False` read logs and `continue`s immediately; only a
raised exception reaches the `except` handler's one-second sleep. -/
def process_camera_step (frame_interval : ℚ) (st : CameraLoopState)
    (now : ℚ) (read : ReadOutcome) : CameraStepResult :=
  if now - st.last_frame_time < frame_interval then
    { state := st, sleepSeconds := 1 / 1000, processedFrame := false, loopContinues := true }
  else
    match read with
    | ReadOutcome.noFrame =>
      { state := st, sleepSeconds := 0, processedFrame := false, loopContinues := true }
    | ReadOutcome.frameOk =>
      { state := { last_frame_time := now, frame_count := st.frame_count + 1 }
        sleepSeconds := 1 / 100, processedFrame := true, loopContinues := true }
    | ReadOutcome.raised =>
      { state := st, sleepSeconds := 1, processedFrame := false, loopContinues := true }

/-! ## Theorems -/

/-- C5: every generated slot id is `floorOffset (A = 0, B = 1000) +
typeOffset (CAR = 0, BIKE = 100) + sequentialNumberWithinType` — the full
layout produces, in order, car ids 1–20 and bike ids 101–116 on floor A and
car ids 1001–1020 and bike ids 1101–1116 on floor B — and the 72 ids of the
complete layout (20 car + 16 bike slots per floor over 2 floors) are
pairwise distinct. -/
theorem slot_ids_formula_and_distinct :
    (∀ n : ℕ, calculate_slot_id "A" "CAR" n = 0 + 0 + n
      ∧ calculate_slot_id "A" "BIKE" n = 0 + 100 + n
      ∧ calculate_slot_id "B" "CAR" n = 1000 + 0 + n
      ∧ calculate_slot_id "B" "BIKE" n = 1000 + 100 + n)
    ∧ allSlotIds =
        ((List.range 20).map (fun n => 0 + 0 + (n + 1)))
          ++ ((List.range 16).map (fun n => 0 + 100 + (n + 1)))
          ++ ((List.range 20).map (fun n => 1000 + 0 + (n + 1)))
          ++ ((List.range 16).map (fun n => 1000 + 100 + (n + 1)))
    ∧ allSlotIds.Nodup ∧ allSlotIds.length = 72 := by
  refine ⟨fun n => ⟨by simp [calculate_slot_id], by simp [calculate_slot_id],
    by simp [calculate_slot_id], by simp [calculate_slot_id]⟩, ?_, ?_, ?_⟩
  · decide
  · decide
  · decide

/-- The numpy population variance is nonnegative. -/
theorem npVar_nonneg (l : List ℚ) : 0 ≤ npVar l := by
  unfold npVar
  apply div_nonneg
  · apply List.sum_nonneg
    intro x hx
    obtain ⟨v, _, rfl⟩ := List.mem_map.mp hx
    positivity
  · positivity

/-- C3: for every slot image region and foreground-mask region, the per-ROI
occupancy score equals `0.4 × foregroundPixelRatio + 0.3 × edgePixelRatio +
0.3 × min(pixelVariance/1000, 1)` clamped to `[0, 1]`, and a slot is
classified occupied exactly when its score is strictly greater than the
occupancy threshold. -/
theorem occupancy_score_weighted_formula (canny : List (List ℚ) → List ℕ)
    (slot_region : List (List ℚ)) (mask_region : List (List ℕ))
    (occupancy_threshold : ℚ) (frame : List (List ℚ)) (bg_mask : List (List ℕ))
    (roi : SlotROI) :
    (slot_region.flatten ≠ [] →
      calculate_occupancy_score canny slot_region mask_region =
        clamp01 (0.4 * (((mask_region.flatten.filter (fun v => 0 < v)).length : ℚ)
              / (mask_region.flatten.length : ℚ))
          + 0.3 * ((((canny slot_region).filter (fun v => 0 < v)).length : ℚ)
              / ((canny slot_region).length : ℚ))
          + 0.3 * min (npVar slot_region.flatten / 1000) 1))
    ∧ ((check_slot_occupancy canny occupancy_threshold frame bg_mask roi).is_occupied = true
        ↔ (check_slot_occupancy canny occupancy_threshold frame bg_mask roi).confidence
            > occupancy_threshold) := by
  constructor
  · intro h
    have hlen : ¬ slot_region.flatten.length = 0 := fun hc =>
      h (List.length_eq_zero.mp hc)
    simp only [calculate_occupancy_score]
    rw [if_neg hlen]
    have hmask : (if 0 < mask_region.flatten.length then
        ((mask_region.flatten.filter (fun v => 0 < v)).length : ℚ)
          / (mask_region.flatten.length : ℚ) else 0) =
        ((mask_region.flatten.filter (fun v => 0 < v)).length : ℚ)
          / (mask_region.flatten.length : ℚ) := by
      rcases Nat.eq_zero_or_pos mask_region.flatten.length with h0 | h0
      · simp [h0]
      · rw [if_pos h0]
    have hedge : (if 0 < (canny slot_region).length then
        (((canny slot_region).filter (fun v => 0 < v)).length : ℚ)
          / ((canny slot_region).length : ℚ) else 0) =
        (((canny slot_region).filter (fun v => 0 < v)).length : ℚ)
          / ((canny slot_region).length : ℚ) := by
      rcases Nat.eq_zero_or_pos (canny slot_region).length with h0 | h0
      · simp [h0]
      · rw [if_pos h0]
    rw [hmask, hedge]
    have hsum : (0 : ℚ) ≤
        0.4 * (((mask_region.flatten.filter (fun v => 0 < v)).length : ℚ)
            / (mask_region.flatten.length : ℚ))
          + 0.3 * ((((canny slot_region).filter (fun v => 0 < v)).length : ℚ)
            / ((canny slot_region).length : ℚ))
          + 0.3 * min (npVar slot_region.flatten / 1000) 1 := by
      have h1 : (0 : ℚ) ≤ ((mask_region.flatten.filter (fun v => 0 < v)).length : ℚ)
          / (mask_region.flatten.length : ℚ) := by positivity
      have h2 : (0 : ℚ) ≤ (((canny slot_region).filter (fun v => 0 < v)).length : ℚ)
          / ((canny slot_region).length : ℚ) := by positivity
      have h3 : (0 : ℚ) ≤ min (npVar slot_region.flatten / 1000) 1 :=
        le_min (div_nonneg (npVar_nonneg _) (by norm_num)) one_pos.le
      have e1 : (0 : ℚ) ≤ (0.4 : ℚ) := by norm_num
      have e2 : (0 : ℚ) ≤ (0.3 : ℚ) := by norm_num
      have := add_nonneg (add_nonneg (mul_nonneg e1 h1) (mul_nonneg e2 h2))
        (mul_nonneg e2 h3)
      linarith
    rw [clamp01, max_eq_right (le_min hsum (by norm_num))]
  · simp [check_slot_occupancy]

/-- Witness for C3: a 2×2 region with two hot mask pixels out of four, one
hot edge pixel out of two, scored through the theorem at a concrete input. -/
theorem occupancy_score_weighted_formula_witness :
    calculate_occupancy_score (fun _ => [255, 0]) [[10, 200], [10, 200]]
        [[255, 0], [0, 255]] =
      clamp01 (0.4 * ((2 : ℚ) / 4) + 0.3 * ((1 : ℚ) / 2)
        + 0.3 * min (npVar [10, 200, 10, 200] / 1000) 1) := by
  have h := (occupancy_score_weighted_formula (fun _ => [255, 0]) [[10, 200], [10, 200]]
    [[255, 0], [0, 255]] 0.4 [] [] ⟨1, "", 0, 0, 0, 0, "CAR", 1⟩).1 (by decide)
  rw [h]
  norm_num [List.flatten]

/-- C10: occupancy scoring is total — a `SlotROI` whose rectangle, clipped to
the frame, contains no pixels is reported unoccupied with score 0
(for any nonnegative threshold) instead of failing. -/
theorem empty_slot_region_unoccupied (canny : List (List ℚ) → List ℕ)
    (occupancy_threshold : ℚ) (frame : List (List ℚ)) (bg_mask : List (List ℕ))
    (roi : SlotROI)
    (hempty : (cropRegion frame roi.x roi.y roi.w roi.h).flatten = [])
    (hθ : 0 ≤ occupancy_threshold) :
    check_slot_occupancy canny occupancy_threshold frame bg_mask roi =
      { slot_id := roi.slot_id, is_occupied := false, confidence := 0 } := by
  have hnot : ¬ (0 : ℚ) > occupancy_threshold := not_lt.mpr hθ
  simp [check_slot_occupancy, calculate_occupancy_score, hempty, hnot]

/-- Witness for C10: a ROI whose rectangle starts below a 2×2 frame. -/
theorem empty_slot_region_unoccupied_witness :
    check_slot_occupancy (fun _ => []) 0.4 [[1, 2], [3, 4]] [[0, 0], [0, 0]]
        ⟨7, "A-C-07", 0, 5, 2, 2, "CAR", 1⟩ =
      { slot_id := 7, is_occupied := false, confidence := 0 } :=
  empty_slot_region_unoccupied (fun _ => []) 0.4 [[1, 2], [3, 4]] [[0, 0], [0, 0]]
    ⟨7, "A-C-07", 0, 5, 2, 2, "CAR", 1⟩ rfl (by norm_num)

/-- C1: the dispatcher's per-`(eventType, plateText)` rate limiter.  For a
plate already dispatched at time `t` (its key's timestamp is `t`), an
identical above-threshold detection strictly inside the 5-second cooldown is
dropped with no backend call and no state change, while one arriving at
least 5 seconds later makes exactly one backend call and moves the key's
timestamp; consequently, from a fresh key, two identical detections within
the cooldown yield exactly one backend call and a third attempt after the
cooldown elapses yields a second call. -/
theorem entry_rate_limiter_cooldown (θ conf : ℚ) (p : String)
    (hp : ¬ p = "") (hc : θ ≤ conf) :
    (∀ (st : CVState) (t tn : ℚ),
      st.last_api_call.lookup ("entry_" ++ p) = some t →
        (tn - t < 5 →
          handle_entry_detection θ st (some p) conf tn = (st, 0))
        ∧ (5 ≤ tn - t →
          handle_entry_detection θ st (some p) conf tn =
            ({ last_api_call := ("entry_" ++ p, tn) :: st.last_api_call,
               failed_detections := st.failed_detections }, 1)))
    ∧ (∀ (st : CVState) (t d₂ d₃ : ℚ),
        st.last_api_call.lookup ("entry_" ++ p) = none →
        d₂ < 5 → 5 ≤ d₃ →
        ∃ s₁ s₂ : CVState,
          handle_entry_detection θ st (some p) conf t = (s₁, 1)
          ∧ handle_entry_detection θ s₁ (some p) conf (t + d₂) = (s₁, 0)
          ∧ handle_entry_detection θ s₁ (some p) conf (t + d₃) = (s₂, 1)) := by
  have hcf : ¬ (conf < θ) := not_lt.mpr hc
  constructor
  · intro st t tn hkey
    constructor
    · intro hlt
      simp [handle_entry_detection, is_rate_limited, hkey, api_cooldown, hp, hlt]
    · intro hge
      have hlt : ¬ (tn - t < 5) := not_lt.mpr hge
      simp [handle_entry_detection, is_rate_limited, hkey, api_cooldown, hp, hlt, hcf]
  · intro st t d₂ d₃ hkey hd2 hd3
    refine ⟨{ last_api_call := ("entry_" ++ p, t) :: st.last_api_call,
              failed_detections := st.failed_detections },
            { last_api_call := ("entry_" ++ p, t + d₃) :: ("entry_" ++ p, t) :: st.last_api_call,
              failed_detections := st.failed_detections }, ?_, ?_, ?_⟩
    · simp [handle_entry_detection, is_rate_limited, hkey, api_cooldown, hp, hcf]
    · have harith : t + d₂ - t = d₂ := by ring
      simp [handle_entry_detection, is_rate_limited, List.lookup, api_cooldown, hp,
        harith, hd2]
    · have harith : t + d₃ - t = d₃ := by ring
      have hge : ¬ (d₃ < 5) := not_lt.mpr hd3
      simp [handle_entry_detection, is_rate_limited, List.lookup, api_cooldown, hp,
        harith, hge, hcf]

/-- Witness for C1: plate `KA01AB1234` at confidence 0.9 against threshold
0.7, dispatched at time 0; a repeat at 3 s is dropped, a repeat at 6 s
dispatches and refreshes the timestamp. -/
theorem entry_rate_limiter_cooldown_witness :
    handle_entry_detection 0.7 ⟨[("entry_KA01AB1234", 0)], 0⟩
        (some "KA01AB1234") 0.9 3 = (⟨[("entry_KA01AB1234", 0)], 0⟩, 0)
    ∧ handle_entry_detection 0.7 ⟨[("entry_KA01AB1234", 0)], 0⟩
        (some "KA01AB1234") 0.9 6 =
      (⟨[("entry_" ++ "KA01AB1234", 6), ("entry_KA01AB1234", 0)], 0⟩, 1) := by
  have h := (entry_rate_limiter_cooldown 0.7 0.9 "KA01AB1234" (by decide) (by norm_num)).1
    ⟨[("entry_KA01AB1234", 0)], 0⟩ 0 3 (by decide)
  have h6 := (entry_rate_limiter_cooldown 0.7 0.9 "KA01AB1234" (by decide) (by norm_num)).1
    ⟨[("entry_KA01AB1234", 0)], 0⟩ 0 6 (by decide)
  exact ⟨h.1 (by norm_num), h6.2 (by norm_num)⟩

/-- C2 is refuted as stated: an ENTRY detection whose plate confidence 0.4
is below the 0.7 threshold but whose `(entry, plate)` key is still inside
the 5-second cooldown (last call at time 0, detection at time 3) is dropped
by the rate limiter *before* the confidence gate, so the dispatcher makes
zero backend calls but leaves `failedDetections` at 0 instead of
incrementing it by 1. -/
theorem entry_low_confidence_rate_limited_cx :
    handle_entry_detection 0.7 ⟨[("entry_KA01AB1234", 0)], 0⟩
        (some "KA01AB1234") 0.4 3 = (⟨[("entry_KA01AB1234", 0)], 0⟩, 0)
    ∧ (handle_entry_detection 0.7 ⟨[("entry_KA01AB1234", 0)], 0⟩
        (some "KA01AB1234") 0.4 3).1.failed_detections ≠ 0 + 1 := by
  have heq : handle_entry_detection 0.7 ⟨[("entry_KA01AB1234", 0)], 0⟩
      (some "KA01AB1234") 0.4 3 = (⟨[("entry_KA01AB1234", 0)], 0⟩, 0) := by
    have hkey : (([("entry_KA01AB1234", (0:ℚ))] : List (String × ℚ)).lookup
        ("entry_" ++ "KA01AB1234")) = some 0 := by decide
    simp [handle_entry_detection, is_rate_limited, hkey, api_cooldown]
    norm_num
  exact ⟨heq, by rw [heq]; decide⟩

/-- C2 as amended: a below-threshold ENTRY detection whose key is *not*
rate-limited (no previous call, or the previous call at least the cooldown
ago) makes zero backend calls and increments `failedDetections` by exactly
1 (while also refreshing the key's rate-limit timestamp); a below-threshold
detection on a rate-limited key is dropped with the counter unchanged. -/
theorem entry_low_confidence_failed_counter (θ conf tn : ℚ) (p : String)
    (st : CVState) (hp : ¬ p = "") (hconf : conf < θ) :
    (st.last_api_call.lookup ("entry_" ++ p) = none →
      handle_entry_detection θ st (some p) conf tn =
        ({ last_api_call := ("entry_" ++ p, tn) :: st.last_api_call,
           failed_detections := st.failed_detections + 1 }, 0))
    ∧ (∀ t, st.last_api_call.lookup ("entry_" ++ p) = some t →
        5 ≤ tn - t →
        handle_entry_detection θ st (some p) conf tn =
          ({ last_api_call := ("entry_" ++ p, tn) :: st.last_api_call,
             failed_detections := st.failed_detections + 1 }, 0))
    ∧ (∀ t, st.last_api_call.lookup ("entry_" ++ p) = some t →
        tn - t < 5 →
        handle_entry_detection θ st (some p) conf tn = (st, 0)) := by
  refine ⟨?_, ?_, ?_⟩
  · intro hkey
    simp [handle_entry_detection, is_rate_limited, hkey, api_cooldown, hp, hconf]
  · intro t hkey hge
    have hlt : ¬ (tn - t < 5) := not_lt.mpr hge
    simp [handle_entry_detection, is_rate_limited, hkey, api_cooldown, hp, hlt, hconf]
  · intro t hkey hlt
    simp [handle_entry_detection, is_rate_limited, hkey, api_cooldown, hp, hlt]

/-- Witness for the amended C2: Scenario D on a fresh key — confidence 0.4
under threshold 0.7, zero calls, counter 0 → 1. -/
theorem entry_low_confidence_failed_counter_witness :
    handle_entry_detection 0.7 ⟨[], 0⟩ (some "KA01AB1234") 0.4 3 =
      (⟨[("entry_" ++ "KA01AB1234", 3)], 0 + 1⟩, 0) :=
  (entry_low_confidence_failed_counter 0.7 0.4 3 "KA01AB1234" ⟨[], 0⟩
    (by decide) (by norm_num)).1 rfl

/-- C4 is refuted as stated: the suppression test compares the `.seconds`
component of the elapsed `timedelta`, which wraps at one day.  A repeat of
the identical plate arriving 86403 s (one day and three seconds, far more
than 10 s) after the last acceptance has seconds component 3 < 10, so it is
still suppressed and produces no event. -/
theorem entry_dedup_day_wrap_cx :
    entry_dedup_step ⟨some "KA01AB1234", some 0⟩ "KA01AB1234" 86403 =
      (none, ⟨some "KA01AB1234", some 0⟩)
    ∧ (10 : ℚ) ≤ 86403 - 0 := by
  constructor
  · have hts : tdSeconds (86403 : ℚ) = 3 := by
      norm_num [tdSeconds]
    simp [entry_dedup_step, hts]
  · norm_num

/-- C4 as amended: the entry pipeline suppresses a frame (producing no event
and keeping the remembered pair) exactly when the validated text equals the
remembered plate and the seconds *component* of the elapsed time —
`⌊Δ⌋ mod 86400`, the Python `timedelta.seconds` field — is below 10;
otherwise the frame is processed and the pair updated.  In particular, an
identical repeat strictly less than 10 s after the last acceptance is
suppressed, an identical repeat at least 10 s but less than one day after
it is processed, and a different validated plate is always processed. -/
theorem entry_dedup_seconds_component (st : EntryPipelineState) (p : String)
    (now t0 : ℚ) :
    (st.last_processed_time = some t0 → st.last_processed_plate = some p →
      (tdSeconds (now - t0) < 10 → entry_dedup_step st p now = (none, st))
      ∧ (10 ≤ tdSeconds (now - t0) →
          entry_dedup_step st p now = (some p, ⟨some p, some now⟩))
      ∧ (0 ≤ now - t0 → now - t0 < 10 → entry_dedup_step st p now = (none, st))
      ∧ (10 ≤ now - t0 → now - t0 < 86400 →
          entry_dedup_step st p now = (some p, ⟨some p, some now⟩)))
    ∧ (st.last_processed_plate ≠ some p →
        entry_dedup_step st p now = (some p, ⟨some p, some now⟩)) := by
  constructor
  · intro htime hplate
    have hself : ∀ d : ℚ, 0 ≤ d → d < 86400 → tdSeconds d = Int.floor d := by
      intro d h0 h1
      have hf0 : (0 : ℤ) ≤ Int.floor d := Int.le_floor.mpr (by exact_mod_cast h0)
      have hf1 : Int.floor d < 86400 := Int.floor_lt.mpr (by exact_mod_cast h1)
      exact Int.emod_eq_of_lt hf0 hf1
    refine ⟨?_, ?_, ?_, ?_⟩
    · intro hlt
      simp [entry_dedup_step, htime, hplate, hlt]
    · intro hge
      have hlt : ¬ tdSeconds (now - t0) < 10 := not_lt.mpr hge
      simp [entry_dedup_step, htime, hplate, hlt]
    · intro h0 h1
      have heq := hself (now - t0) h0 (by linarith)
      have hlt : tdSeconds (now - t0) < 10 := by
        rw [heq]
        exact Int.floor_lt.mpr (by push_cast; linarith)
      simp [entry_dedup_step, htime, hplate, hlt]
    · intro h0 h1
      have heq := hself (now - t0) (by linarith) h1
      have hge : 10 ≤ tdSeconds (now - t0) := by
        rw [heq]
        exact Int.le_floor.mpr (by push_cast; linarith)
      have hlt : ¬ tdSeconds (now - t0) < 10 := not_lt.mpr hge
      simp [entry_dedup_step, htime, hplate, hlt]
  · intro hplate
    cases htime : st.last_processed_time <;>
      simp [entry_dedup_step, hplate, htime]

/-- Witness for the amended C4: with plate `AB12CD` accepted at time 0, a
repeat at 5 s is suppressed, a repeat at 11 s is processed and refreshes the
remembered pair, and a different plate at 5 s is processed. -/
theorem entry_dedup_seconds_component_witness :
    entry_dedup_step ⟨some "AB12CD", some 0⟩ "AB12CD" 5 =
      (none, ⟨some "AB12CD", some 0⟩)
    ∧ entry_dedup_step ⟨some "AB12CD", some 0⟩ "AB12CD" 11 =
      (some "AB12CD", ⟨some "AB12CD", some 11⟩)
    ∧ entry_dedup_step ⟨some "AB12CD", some 0⟩ "XY99ZZ" 5 =
      (some "XY99ZZ", ⟨some "XY99ZZ", some 5⟩) := by
  have h := entry_dedup_seconds_component ⟨some "AB12CD", some 0⟩ "AB12CD" 5 0
  have h11 := entry_dedup_seconds_component ⟨some "AB12CD", some 0⟩ "AB12CD" 11 0
  have hx := entry_dedup_seconds_component ⟨some "AB12CD", some 0⟩ "XY99ZZ" 5 0
  refine ⟨(h.1 rfl rfl).2.2.1 (by norm_num) (by norm_num),
    (h11.1 rfl rfl).2.2.2 (by norm_num) (by norm_num),
    hx.2 (by simp)⟩

/-- The Python `max(·, key=len)` fold stays at the seed or moves to a list
element. -/
theorem maxByLen_mem (l : List (List Char)) (a : List Char) :
    maxByLen a l = a ∨ maxByLen a l ∈ l := by
  induction l generalizing a with
  | nil => exact Or.inl rfl
  | cons x xs ih =>
    have hfold : maxByLen a (x :: xs) = maxByLen (if a.length < x.length then x else a) xs := rfl
    by_cases hx : a.length < x.length
    · rw [hfold, if_pos hx]
      rcases ih x with h | h
      · exact Or.inr (by rw [h]; exact List.mem_cons_self x xs)
      · exact Or.inr (List.mem_cons_of_mem x h)
    · rw [hfold, if_neg hx]
      rcases ih a with h | h
      · exact Or.inl h
      · exact Or.inr (List.mem_cons_of_mem x h)

/-- The Python `max(·, key=len)` fold dominates its seed and every element. -/
theorem maxByLen_ge (l : List (List Char)) (a : List Char) :
    a.length ≤ (maxByLen a l).length
    ∧ ∀ t ∈ l, t.length ≤ (maxByLen a l).length := by
  induction l generalizing a with
  | nil => exact ⟨le_refl _, by simp⟩
  | cons x xs ih =>
    have step := ih (if a.length < x.length then x else a)
    have ha : a.length ≤ (if a.length < x.length then x else a).length := by
      by_cases hx : a.length < x.length
      · rw [if_pos hx]; exact hx.le
      · rw [if_neg hx]
    have hx' : x.length ≤ (if a.length < x.length then x else a).length := by
      by_cases hx : a.length < x.length
      · rw [if_pos hx]
      · rw [if_neg hx]; exact not_lt.mp hx
    have hfold : maxByLen a (x :: xs) = maxByLen (if a.length < x.length then x else a) xs := rfl
    rw [hfold]
    refine ⟨le_trans ha step.1, ?_⟩
    intro t ht
    rcases List.mem_cons.mp ht with rfl | ht
    · exact le_trans hx' step.1
    · exact step.2 t ht

/-- Collecting a blank attempt leaves the list as it was; the collected list
is empty exactly when the accumulator was empty and the attempt blank. -/
theorem truthyApp_eq_nil (acc : List (List Char)) (r : Option (List Char)) :
    truthyApp acc r = [] ↔ acc = [] ∧ blankResult r := by
  cases r with
  | none => simp [truthyApp, blankResult]
  | some s =>
    by_cases hs : s.isEmpty
    · have : s = [] := List.isEmpty_iff.mp hs
      subst this
      simp [truthyApp, blankResult]
    · have hne : s ≠ [] := fun hc => hs (by simp [hc])
      simp [truthyApp, hs, blankResult, hne]

/-- C7: the multi-attempt OCR path collects the truthy results of its three
OCR attempts (standard preprocessing, no preprocessing, contrast-enhanced)
and returns a collected string of maximal length — length alone decides the
selection — and it returns nothing exactly when all three attempts
contributed no usable result. -/
theorem multi_attempt_longest (r1 r2 r3 : Option (List Char)) :
    (read_with_multiple_attempts r1 r2 r3 = none ↔ collectAttempts r1 r2 r3 = [])
    ∧ (collectAttempts r1 r2 r3 = [] ↔
        blankResult r1 ∧ blankResult r2 ∧ blankResult r3)
    ∧ (∀ s, read_with_multiple_attempts r1 r2 r3 = some s →
        s ∈ collectAttempts r1 r2 r3
        ∧ ∀ t ∈ collectAttempts r1 r2 r3, t.length ≤ s.length) := by
  refine ⟨?_, ?_, ?_⟩
  · rw [read_with_multiple_attempts]
    cases hc : collectAttempts r1 r2 r3 <;> simp [hc]
  · rw [collectAttempts, truthyApp_eq_nil, truthyApp_eq_nil, truthyApp_eq_nil]
    tauto
  · intro s hs
    rw [read_with_multiple_attempts] at hs
    cases hc : collectAttempts r1 r2 r3 with
    | nil => rw [hc] at hs; exact absurd hs (by simp)
    | cons a rest =>
      rw [hc] at hs
      have hsel : maxByLen a rest = s := by simpa using hs
      constructor
      · rcases maxByLen_mem rest a with h | h
        · rw [← hsel, h]; exact List.mem_cons_self a rest
        · rw [← hsel]; exact List.mem_cons_of_mem a h
      · intro t ht
        rw [← hsel]
        rcases List.mem_cons.mp ht with rfl | ht'
        · exact (maxByLen_ge rest t).1
        · exact (maxByLen_ge rest a).2 t ht'

/-- Witness for C7: attempts yield `AB12`, `XY5678` and nothing; the longest
collected string `XY5678` is selected and both collected strings are
bounded by its length. -/
theorem multi_attempt_longest_witness :
    ("XY5678".toList ∈ collectAttempts (some "AB12".toList) (some "XY5678".toList) none)
    ∧ "AB12".toList.length ≤ "XY5678".toList.length
    ∧ read_with_multiple_attempts (some "AB12".toList) (some "XY5678".toList) none =
        some "XY5678".toList := by
  have hsome : read_with_multiple_attempts (some "AB12".toList) (some "XY5678".toList) none =
      some "XY5678".toList := by decide
  have h := (multi_attempt_longest (some "AB12".toList) (some "XY5678".toList) none).2.2
    "XY5678".toList hsome
  exact ⟨h.1, h.2 "AB12".toList (by decide), hsome⟩

/-- C8 is refuted in its backoff half: an iteration past the throttle gate
whose `cap.read()` returns `ret = False` performs `continue` with a sleep of
0 seconds — the 1-second backoff lives only in the `except` handler — so
repeated `ret = False` failures re-poll the dead stream immediately instead
of sleeping about 1 s. -/
theorem camera_read_failure_no_backoff_cx :
    process_camera_step (1 / 10) ⟨0, 0⟩ 1 ReadOutcome.noFrame =
      { state := ⟨0, 0⟩, sleepSeconds := 0, processedFrame := false, loopContinues := true }
    ∧ (process_camera_step (1 / 10) ⟨0, 0⟩ 1 ReadOutcome.noFrame).sleepSeconds ≠ 1 := by
  have h : process_camera_step (1 / 10) ⟨0, 0⟩ 1 ReadOutcome.noFrame =
      { state := ⟨0, 0⟩, sleepSeconds := 0, processedFrame := false, loopContinues := true } := by
    have hg : ¬ ((1 : ℚ) - 0 < 1 / 10) := by norm_num
    simp [process_camera_step, hg]
    norm_num
  refine ⟨h, ?_⟩
  rw [h]
  norm_num

/-- C8 as amended: no read outcome ever terminates the worker loop — every
iteration continues, with a `ret = False` read failure retried immediately
(zero sleep, state untouched) — and the 1-second backoff sleep happens
exactly when the iteration raises an exception. -/
theorem camera_loop_contained_failures (frame_interval : ℚ)
    (st : CameraLoopState) (now : ℚ) (read : ReadOutcome) :
    (process_camera_step frame_interval st now read).loopContinues = true
    ∧ (¬ now - st.last_frame_time < frame_interval →
        process_camera_step frame_interval st now ReadOutcome.noFrame =
          { state := st, sleepSeconds := 0, processedFrame := false, loopContinues := true })
    ∧ (¬ now - st.last_frame_time < frame_interval →
        process_camera_step frame_interval st now ReadOutcome.raised =
          { state := st, sleepSeconds := 1, processedFrame := false, loopContinues := true }) := by
  refine ⟨?_, ?_, ?_⟩
  · by_cases hg : now - st.last_frame_time < frame_interval
    · simp [process_camera_step, hg]
    · cases read <;> simp [process_camera_step, hg]
  · intro hg
    simp [process_camera_step, hg]
  · intro hg
    simp [process_camera_step, hg]

/-- Witness for the amended C8: at a 0.1-second frame interval with the last
frame at time 0, an iteration at time 1 whose read raises sleeps exactly 1
second, and the loop-continue flag holds for a successful read as well. -/
theorem camera_loop_contained_failures_witness :
    process_camera_step (1 / 10) ⟨0, 0⟩ 1 ReadOutcome.raised =
      { state := ⟨0, 0⟩, sleepSeconds := 1, processedFrame := false, loopContinues := true }
    ∧ (process_camera_step (1 / 10) ⟨0, 0⟩ 1 ReadOutcome.frameOk).loopContinues = true := by
  have h := camera_loop_contained_failures (1 / 10) ⟨0, 0⟩ 1 ReadOutcome.frameOk
  exact ⟨(camera_loop_contained_failures (1 / 10) ⟨0, 0⟩ 1 ReadOutcome.raised).2.2
    (by norm_num), h.1⟩

/-- C6 is refuted in its final clause: the cleaned text `A1` matches the
first configured pattern (`^[A-Z]{1,3}\s?\d{1,4}\s?[A-Z]{0,3}$`), yet
validation rejects it because the length-≥-4 test runs before any pattern
is tried — a pattern match does not make acceptance length-independent. -/
theorem validate_pattern_short_cx :
    reMatch platePattern1 "A1".toList = true
    ∧ plate_patterns.any (fun pt => reMatch pt "A1".toList) = true
    ∧ clean_plate_text "A1".toList = "A1".toList
    ∧ validate_plate_text "A1".toList = false := by
  refine ⟨by decide, by decide, by decide, by decide⟩

/-- C6 as amended: validation accepts a cleaned text exactly when its length
is at least 4 and it either matches one of the configured plate patterns or
contains at least one letter and one digit; in particular pattern-matching
texts shorter than 4 characters are rejected. -/
theorem validate_accepts_iff (t : List Char) :
    validate_plate_text t =
      (decide (4 ≤ t.length) &&
        (plate_patterns.any (fun pt => reMatch pt t) ||
          (t.any isAlphaPy && t.any isDigit09))) := by
  rw [validate_plate_text]
  by_cases h4 : t.length < 4
  · have hn : ¬ (4 ≤ t.length) := not_le.mpr h4
    simp [h4, hn]
  · have hle : 4 ≤ t.length := not_lt.mp h4
    have hne : ¬ t.isEmpty = true := by
      intro hc
      have := List.isEmpty_iff.mp hc
      subst this
      exact h4 (by simp)
    by_cases hm : plate_patterns.any (fun pt => reMatch pt t) = true <;>
      simp [h4, hle, hne, hm]

/-- Decoding a valid code point recovers it. -/
theorem toNat_ofNat_valid {n : ℕ} (h : n < 55296) : (Char.ofNat n).toNat = n := by
  have hv : n.isValidChar := Or.inl h
  simp only [Char.ofNat, dif_pos hv, Char.ofNatAux, Char.toNat]
  rfl

/-- The code point of the ASCII uppercase map. -/
theorem upperPy_toNat (c : Char) :
    (upperPy c).toNat = if isLowerAZ c then c.toNat - 32 else c.toNat := by
  by_cases h : isLowerAZ c = true
  · have hb : 97 ≤ c.toNat ∧ c.toNat ≤ 122 := by
      simpa [isLowerAZ, Bool.and_eq_true, decide_eq_true_eq] using h
    rw [upperPy, if_pos h, if_pos h]
    exact toNat_ofNat_valid (by omega)
  · rw [upperPy, if_neg h, if_neg h]

/-- Uppercasing fixes non-lowercase characters. -/
theorem upperPy_fix {c : Char} (h : isLowerAZ c = false) : upperPy c = c := by
  rw [upperPy, if_neg (by simp [h])]

/-- The result of uppercasing is never lowercase. -/
theorem isLowerAZ_upperPy (c : Char) : isLowerAZ (upperPy c) = false := by
  have ht := upperPy_toNat c
  by_cases h : isLowerAZ c = true
  · have hb : 97 ≤ c.toNat ∧ c.toNat ≤ 122 := by
      simpa [isLowerAZ, Bool.and_eq_true, decide_eq_true_eq] using h
    rw [if_pos h] at ht
    simp only [isLowerAZ, ht, Bool.and_eq_false_iff, decide_eq_false_iff_not]
    omega
  · rw [if_neg h] at ht
    simp only [isLowerAZ, ht]
    simpa [isLowerAZ] using h

/-- Uppercasing is idempotent. -/
theorem upperPy_idem (c : Char) : upperPy (upperPy c) = upperPy c :=
  upperPy_fix (isLowerAZ_upperPy c)

/-- Uppercasing neither creates nor destroys whitespace. -/
theorem isWsPy_upperPy (c : Char) : isWsPy (upperPy c) = isWsPy c := by
  have ht := upperPy_toNat c
  by_cases h : isLowerAZ c = true
  · have hb : 97 ≤ c.toNat ∧ c.toNat ≤ 122 := by
      simpa [isLowerAZ, Bool.and_eq_true, decide_eq_true_eq] using h
    rw [if_pos h] at ht
    simp only [isWsPy, ht]
    have h1 : ∀ m : ℕ, 65 ≤ m → m ≤ 90 →
        ((decide (m = 32) || decide (m = 9) || decide (m = 10) || decide (m = 11) ||
          decide (m = 12) || decide (m = 13)) = false) := by
      intro m hm1 hm2
      simp only [Bool.or_eq_false_iff, decide_eq_false_iff_not]
      omega
    rw [h1 _ (by omega) (by omega)]
    symm
    simp only [Bool.or_eq_false_iff, decide_eq_false_iff_not]
    omega
  · rw [if_neg h] at ht
    simp only [isWsPy, ht]

/-- Uppercasing a kept character keeps it. -/
theorem keepChar_upperPy {c : Char} (h : keepChar c = true) :
    keepChar (upperPy c) = true := by
  have ht := upperPy_toNat c
  by_cases hl : isLowerAZ c = true
  · have hb : 97 ≤ c.toNat ∧ c.toNat ≤ 122 := by
      simpa [isLowerAZ, Bool.and_eq_true, decide_eq_true_eq] using hl
    rw [if_pos hl] at ht
    simp only [keepChar, isAlphaPy, isUpperAZ, isLowerAZ, isDigit09, isWsPy, ht,
      Bool.or_eq_true, Bool.and_eq_true, decide_eq_true_eq]
    omega
  · rw [if_neg hl] at ht
    simp only [keepChar, isAlphaPy, isUpperAZ, isLowerAZ, isDigit09, isWsPy, ht,
      Bool.or_eq_true, Bool.and_eq_true, decide_eq_true_eq] at h ⊢
    exact h

/-- A run-free list stays run-free after dropping its head. -/
theorem noWsRun_tail {c : Char} {l : List Char} (h : noWsRun (c :: l)) :
    noWsRun l := by
  cases l with
  | nil => trivial
  | cons d ds => exact h.2

/-- Prepending any character to a run-free list with a non-whitespace head
keeps it run-free. -/
theorem noWsRun_cons {c : Char} {l : List Char} (hl : noWsRun l)
    (hh : noLeadWs l) : noWsRun (c :: l) := by
  cases l with
  | nil => trivial
  | cons d ds => exact ⟨Or.inr hh, hl⟩

/-- Prepending a non-whitespace character to a run-free list keeps it
run-free. -/
theorem noWsRun_cons_nonws {c : Char} {l : List Char} (hc : isWsPy c = false)
    (hl : noWsRun l) : noWsRun (c :: l) := by
  cases l with
  | nil => trivial
  | cons d ds => exact ⟨Or.inl hc, hl⟩

/-- A nonempty tail carries the whole list's trailing-character property. -/
theorem noTrailWs_cons {c : Char} {l : List Char} (hne : l ≠ [])
    (h : noTrailWs l) : noTrailWs (c :: l) := by
  cases l with
  | nil => exact absurd rfl hne
  | cons d ds => exact h

/-- Characters produced by the whitespace-collapsing scan are either the
replacement space or non-whitespace characters of the input. -/
theorem collapseGo_mem {c : Char} {b : Bool} {l : List Char}
    (h : c ∈ collapseGo b l) : c = ' ' ∨ (c ∈ l ∧ isWsPy c = false) := by
  induction l generalizing b with
  | nil => simp [collapseGo] at h
  | cons d ds ih =>
    simp only [collapseGo] at h
    by_cases hd : isWsPy d = true
    · rw [if_pos hd] at h
      rcases List.mem_append.mp h with h1 | h2
      · cases b with
        | true => simp at h1
        | false =>
          left
          simpa using h1
      · rcases ih h2 with h | ⟨hm, hw⟩
        · exact Or.inl h
        · exact Or.inr ⟨List.mem_cons_of_mem d hm, hw⟩
    · rw [if_neg hd] at h
      rcases List.mem_cons.mp h with rfl | h2
      · exact Or.inr ⟨List.mem_cons_self _ _, by simpa using hd⟩
      · rcases ih h2 with h | ⟨hm, hw⟩
        · exact Or.inl h
        · exact Or.inr ⟨List.mem_cons_of_mem d hm, hw⟩

/-- Inside a whitespace run the scan never emits a leading space. -/
theorem collapseGo_true_noLead (l : List Char) : noLeadWs (collapseGo true l) := by
  induction l with
  | nil => trivial
  | cons d ds ih =>
    simp only [collapseGo]
    by_cases hd : isWsPy d = true
    · rw [if_pos hd]
      simpa using ih
    · rw [if_neg hd]
      simpa [noLeadWs] using hd

/-- The scan preserves a non-whitespace head. -/
theorem collapseGo_false_noLead {l : List Char} (h : noLeadWs l) :
    noLeadWs (collapseGo false l) := by
  cases l with
  | nil => trivial
  | cons d ds =>
    have hd : isWsPy d = false := h
    simp only [collapseGo, hd, Bool.false_eq_true, if_false]
    exact hd

/-- The scan's output never contains two adjacent whitespace characters. -/
theorem collapseGo_noWsRun (b : Bool) (l : List Char) :
    noWsRun (collapseGo b l) := by
  induction l generalizing b with
  | nil => trivial
  | cons d ds ih =>
    simp only [collapseGo]
    by_cases hd : isWsPy d = true
    · rw [if_pos hd]
      cases b with
      | true => simpa using ih true
      | false =>
        rw [show (if (false : Bool) = true then ([] : List Char) else [' ']) = [' ']
          from rfl, List.singleton_append]
        exact noWsRun_cons (ih true) (collapseGo_true_noLead ds)
    · rw [if_neg hd]
      exact noWsRun_cons_nonws (by simpa using hd) (ih false)

/-- Inside a run, the scan of a list that does not end in whitespace is
nonempty once the list is. -/
theorem collapseGo_true_ne_nil {l : List Char} (h : noTrailWs l) (hne : l ≠ []) :
    collapseGo true l ≠ [] := by
  induction l with
  | nil => exact absurd rfl hne
  | cons d ds ih =>
    simp only [collapseGo]
    by_cases hd : isWsPy d = true
    · rw [if_pos hd]
      cases ds with
      | nil => exact absurd h (by simpa [noTrailWs] using hd)
      | cons e es =>
        simpa using ih h (by simp)
    · rw [if_neg hd]
      simp

/-- The scan of a nonempty list, outside a run, is nonempty. -/
theorem collapseGo_false_ne_nil {l : List Char} (hne : l ≠ []) :
    collapseGo false l ≠ [] := by
  cases l with
  | nil => exact absurd rfl hne
  | cons d ds =>
    simp only [collapseGo]
    by_cases hd : isWsPy d = true
    · rw [if_pos hd]; simp
    · rw [if_neg hd]; simp

/-- The scan preserves the absence of trailing whitespace. -/
theorem collapseGo_noTrail (b : Bool) {l : List Char} (h : noTrailWs l) :
    noTrailWs (collapseGo b l) := by
  induction l generalizing b with
  | nil => trivial
  | cons d ds ih =>
    simp only [collapseGo]
    by_cases hd : isWsPy d = true
    · rw [if_pos hd]
      cases ds with
      | nil => exact absurd h (by simpa [noTrailWs] using hd)
      | cons e es =>
        have hds : noTrailWs (e :: es) := h
        have hXne : collapseGo true (e :: es) ≠ [] :=
          collapseGo_true_ne_nil hds (by simp)
        have hX : noTrailWs (collapseGo true (e :: es)) := ih true hds
        cases b with
        | true => simpa using hX
        | false =>
          rw [show (if (false : Bool) = true then ([] : List Char) else [' ']) = [' ']
            from rfl, List.singleton_append]
          exact noTrailWs_cons hXne hX
    · rw [if_neg hd]
      cases ds with
      | nil => simpa [collapseGo, noTrailWs] using hd
      | cons e es =>
        have hds : noTrailWs (e :: es) := h
        exact noTrailWs_cons (collapseGo_false_ne_nil (by simp)) (ih false hds)

/-- The scan is the identity on normalized text: every whitespace character
is a plain space and none are adjacent. -/
theorem collapseGo_id {l : List Char}
    (h3 : ∀ c ∈ l, isWsPy c = true → c = ' ') (h4 : noWsRun l) :
    collapseGo false l = l ∧ (noLeadWs l → collapseGo true l = l) := by
  induction l with
  | nil => simp [collapseGo]
  | cons d ds ih =>
    have h3' : ∀ c ∈ ds, isWsPy c = true → c = ' ' := fun c hc =>
      h3 c (List.mem_cons_of_mem d hc)
    obtain ⟨ihf, iht⟩ := ih h3' (noWsRun_tail h4)
    by_cases hd : isWsPy d = true
    · have hd' : d = ' ' := h3 d (List.mem_cons_self d ds) hd
      constructor
      · simp only [collapseGo, if_pos hd, List.cons_append, List.nil_append]
        cases ds with
        | nil => simp [collapseGo, hd']
        | cons e es =>
          have he : isWsPy e = false := by
            rcases h4.1 with h | h
            · exact absurd hd (by simp [h])
            · exact h
          rw [iht he, hd',
            show (if (false : Bool) = true then ([] : List Char) else [' ']) = [' ']
              from rfl, List.singleton_append]
      · intro hlead
        exact absurd hd (by simp [show isWsPy d = false from hlead])
    · have hd' : isWsPy d = false := by simpa using hd
      constructor
      · simp only [collapseGo, if_neg hd]
        rw [ihf]
      · intro _
        simp only [collapseGo, if_neg hd]
        rw [ihf]

/-- Dropping leading whitespace leaves no leading whitespace. -/
theorem dropWhile_ws_noLead (l : List Char) : noLeadWs (l.dropWhile isWsPy) := by
  induction l with
  | nil => trivial
  | cons d ds ih =>
    rw [List.dropWhile_cons]
    by_cases hd : isWsPy d = true
    · rw [if_pos hd]; exact ih
    · rw [if_neg hd]
      simpa [noLeadWs] using hd

/-- Dropping leading whitespace is the identity when there is none. -/
theorem dropWhile_ws_id {l : List Char} (h : noLeadWs l) :
    l.dropWhile isWsPy = l := by
  cases l with
  | nil => rfl
  | cons d ds =>
    rw [List.dropWhile_cons, if_neg (by simp [show isWsPy d = false from h])]

/-- Removing trailing whitespace leaves no trailing whitespace. -/
theorem dropTrailWs_noTrail (l : List Char) : noTrailWs (dropTrailWs l) := by
  induction l with
  | nil => trivial
  | cons d ds ih =>
    simp only [dropTrailWs]
    by_cases hcond : ((dropTrailWs ds).isEmpty && isWsPy d) = true
    · rw [if_pos hcond]; trivial
    · rw [if_neg hcond]
      cases hrest : dropTrailWs ds with
      | nil =>
        have hd : isWsPy d = false := by
          rcases Bool.and_eq_false_iff.mp (Bool.not_eq_true _ |>.mp hcond) with h | h
          · rw [hrest] at h; simp at h
          · exact h
        simpa [hrest, noTrailWs] using hd
      | cons e es =>
        rw [hrest] at ih
        exact noTrailWs_cons (by simp) ih

/-- Removing trailing whitespace preserves a non-whitespace head. -/
theorem dropTrailWs_noLead {l : List Char} (h : noLeadWs l) :
    noLeadWs (dropTrailWs l) := by
  cases l with
  | nil => trivial
  | cons d ds =>
    simp only [dropTrailWs]
    by_cases hcond : ((dropTrailWs ds).isEmpty && isWsPy d) = true
    · rw [if_pos hcond]; trivial
    · rw [if_neg hcond]; exact h

/-- Characters surviving trailing-whitespace removal come from the input. -/
theorem dropTrailWs_mem {c : Char} {l : List Char} (h : c ∈ dropTrailWs l) :
    c ∈ l := by
  induction l with
  | nil => simp [dropTrailWs] at h
  | cons d ds ih =>
    simp only [dropTrailWs] at h
    by_cases hcond : ((dropTrailWs ds).isEmpty && isWsPy d) = true
    · rw [if_pos hcond] at h; simp at h
    · rw [if_neg hcond] at h
      rcases List.mem_cons.mp h with rfl | h2
      · exact List.mem_cons_self _ _
      · exact List.mem_cons_of_mem d (ih h2)

/-- Removing trailing whitespace is the identity when there is none. -/
theorem dropTrailWs_id {l : List Char} (h : noTrailWs l) : dropTrailWs l = l := by
  induction l with
  | nil => rfl
  | cons d ds ih =>
    simp only [dropTrailWs]
    cases ds with
    | nil =>
      have hd : isWsPy d = false := h
      simp [dropTrailWs, hd]
    | cons e es =>
      have hds : noTrailWs (e :: es) := h
      rw [ih hds]
      simp

/-- Characters of the stripped text come from the text. -/
theorem stripWs_mem {c : Char} {l : List Char} (h : c ∈ stripWs l) : c ∈ l :=
  List.Sublist.mem (dropTrailWs_mem h) (List.dropWhile_sublist isWsPy)

/-- The stripped text neither starts nor ends with whitespace. -/
theorem stripWs_noLead_noTrail (l : List Char) :
    noLeadWs (stripWs l) ∧ noTrailWs (stripWs l) :=
  ⟨dropTrailWs_noLead (dropWhile_ws_noLead l), dropTrailWs_noTrail _⟩

/-- Stripping is the identity on text with no surrounding whitespace. -/
theorem stripWs_id {l : List Char} (h1 : noLeadWs l) (h2 : noTrailWs l) :
    stripWs l = l := by
  rw [stripWs, dropWhile_ws_id h1, dropTrailWs_id h2]

/-- Mapping a function that fixes every member is the identity. -/
theorem map_id_of_fixes {f : Char → Char} {l : List Char}
    (h : ∀ c ∈ l, f c = c) : l.map f = l := by
  induction l with
  | nil => rfl
  | cons d ds ih =>
    rw [List.map_cons, h d (List.mem_cons_self d ds),
      ih (fun c hc => h c (List.mem_cons_of_mem d hc))]

/-- Every character of a cleaned plate text is kept by the filter class,
fixed by uppercasing, and is a plain space whenever it is whitespace. -/
theorem clean_plate_text_chars {c : Char} {l : List Char}
    (h : c ∈ clean_plate_text l) :
    keepChar c = true ∧ upperPy c = c ∧ (isWsPy c = true → c = ' ') := by
  rcases collapseGo_mem h with rfl | ⟨hmem, hws⟩
  · exact ⟨by decide, by decide, fun _ => rfl⟩
  · have hm : c ∈ (l.filter keepChar).map upperPy := stripWs_mem hmem
    obtain ⟨d, hd, rfl⟩ := List.mem_map.mp hm
    have hkeep : keepChar d = true := List.of_mem_filter hd
    exact ⟨keepChar_upperPy hkeep, upperPy_idem d, fun hws' => absurd hws' (by simp [hws])⟩

/-- C9: plate-text cleaning — strip to `[A-Za-z0-9\s]`, uppercase, strip
surrounding whitespace and collapse whitespace runs to single spaces — is
idempotent: cleaning a cleaned text returns it unchanged. -/
theorem clean_plate_text_idempotent (l : List Char) :
    clean_plate_text (clean_plate_text l) = clean_plate_text l := by
  have hchars := fun c hc => clean_plate_text_chars (l := l) (c := c) hc
  have hfilter : (clean_plate_text l).filter keepChar = clean_plate_text l :=
    List.filter_eq_self.mpr (fun c hc => (hchars c hc).1)
  have hmap : (clean_plate_text l).map upperPy = clean_plate_text l :=
    map_id_of_fixes (fun c hc => (hchars c hc).2.1)
  have hlead : noLeadWs (clean_plate_text l) :=
    collapseGo_false_noLead (stripWs_noLead_noTrail _).1
  have htrail : noTrailWs (clean_plate_text l) :=
    collapseGo_noTrail false (stripWs_noLead_noTrail _).2
  have hrun : noWsRun (clean_plate_text l) := collapseGo_noWsRun false _
  calc clean_plate_text (clean_plate_text l)
      = collapseWs (stripWs (clean_plate_text l)) := by
        rw [clean_plate_text, hfilter, hmap]
    _ = collapseWs (clean_plate_text l) := by rw [stripWs_id hlead htrail]
    _ = clean_plate_text l :=
        (collapseGo_id (fun c hc => (hchars c hc).2.2) hrun).1

end VisualParking
